import Mathlib

/-!
Shallow embedding of the core of the spyce-nvaders Intel 8080 emulator
(src/cpu.py, src/devices.py, src/bus.py) and verification of the frozen
claims about it.

Conventions of the embedding:
* Python integers are unbounded, so registers and intermediate results are
  modelled as Nat (or Int where a Python value can go negative, as in dcr).
* Python's bitwise ops on nonnegative ints coincide with Nat's &&&, |||,
  <<<, >>>; for a possibly-negative Python int x, x & 0xff equals
  x mod 256 (Euclidean mod), which is how such masks are translated.
* Python bools are ints (True = 1, False = 0).  The Flags fields are
  therefore Nat: comparisons store 0/1, while the RLC opcode stores the
  raw value 0x80 into cy exactly as the source does.
* The 64 KiB bytearray is modelled as a total function Nat -> Nat; writes
  that the source performs masked (value & 0xff) are total, while the one
  unmasked bytearray write in the source (INR M) is modelled as Option,
  none meaning the ValueError a bytearray raises for a value outside
  [0, 256).  A dict lookup that can raise KeyError (the I/O bus) is
  likewise modelled as Option.
-/

/-- merge_bytes from src/cpu.py: (high << 8) | low. -/
def merge_bytes (high low : Nat) : Nat := (high <<< 8) ||| low

/-- extract_bytes from src/cpu.py: ((adr >> 8) & 0xff, adr & 0xff). -/
def extract_bytes (adr : Nat) : Nat × Nat := ((adr >>> 8) &&& 0xff, adr &&& 0xff)

/-- get_twos_comp from src/cpu.py: (byte ^ 0xff) + 0x01. -/
def get_twos_comp (byte : Nat) : Nat := (byte ^^^ 0xff) + 0x01

/-- get_lsb from src/cpu.py: byte & 0xf. -/
def get_lsb (byte : Nat) : Nat := byte &&& 0xf

/-- Fuel-driven count of binary 1-digits; fuel n suffices for input n. -/
def countOnesAux : Nat → Nat → Nat
  | _, 0 => 0
  | 0, _ + 1 => 0
  | fuel + 1, n + 1 => (n + 1) % 2 + countOnesAux fuel ((n + 1) / 2)

/-- Number of 1-bits of n, i.e. Python's bin(n).count('1') for n >= 0. -/
def countOnes (n : Nat) : Nat := countOnesAux n n

/-- parity from src/cpu.py: True iff the count of 1-bits of n is even. -/
def parity (n : Nat) : Bool := countOnes n % 2 == 0

/-- The five condition bits of the Flags class in src/cpu.py.  Python keeps
them as ints/bools, so each field is a Nat (normally 0 or 1, but RLC stores
0x80). -/
structure Flags where
  z : Nat
  s : Nat
  p : Nat
  cy : Nat
  ac : Nat
deriving DecidableEq, Repr

/-- Flags.__int__ from src/cpu.py: the packed PSW low byte,
byte = cy | 0x02 | (p << 2) | (ac << 4) | (z << 6) | (s << 7). -/
def flagsInt (f : Flags) : Nat :=
  let byte := f.cy
  let byte := byte ||| 0x02
  let byte := byte ||| (f.p <<< 2)
  let byte := byte ||| (f.ac <<< 4)
  let byte := byte ||| (f.z <<< 6)
  let byte := byte ||| (f.s <<< 7)
  byte

/-- The cc property setter of State in src/cpu.py: unpack a PSW low byte
into the five flag bits (each comparison produces a Python bool, i.e. 0/1). -/
def ccSet (f : Flags) (val : Nat) : Flags :=
  { f with
    cy := if val &&& 0x01 ≠ 0 then 1 else 0,
    p := if val &&& 0x04 ≠ 0 then 1 else 0,
    ac := if val &&& 0x10 ≠ 0 then 1 else 0,
    z := if val &&& 0x40 ≠ 0 then 1 else 0,
    s := if val &&& 0x80 ≠ 0 then 1 else 0 }

/-- The CPU state of class State in src/cpu.py.  memory is the bytearray
(ROM + RAM) as a total function; int_enable and cycles as in the source. -/
structure State where
  mem : Nat → Nat
  a : Nat
  cc : Flags
  b : Nat
  c : Nat
  d : Nat
  e : Nat
  h : Nat
  l : Nat
  sp : Nat
  pc : Nat
  int_enable : Nat
  cycles : Nat

/-- The hl property of State: merge_bytes(h, l). -/
def State.hl (s : State) : Nat := merge_bytes s.h s.l

/-- The bc property of State: merge_bytes(b, c). -/
def State.bc (s : State) : Nat := merge_bytes s.b s.c

/-- The de property of State: merge_bytes(d, e). -/
def State.de (s : State) : Nat := merge_bytes s.d s.e

/-- Pointwise update of the modelled bytearray. -/
def updMem (m : Nat → Nat) (i v : Nat) : Nat → Nat :=
  fun j => if j = i then v else m j

/-- The 8-bit operand selectors of the register-or-memory instructions:
the strings 'a'..'l' and 'm' accepted by State.inr, State.dcr, etc. -/
inductive RegM
  | a | b | c | d | e | h | l | m
deriving DecidableEq, Repr

/-- getattr(self, reg) for a register name, and memory[hl] for 'm'. -/
def getRegM (s : State) : RegM → Nat
  | RegM.a => s.a
  | RegM.b => s.b
  | RegM.c => s.c
  | RegM.d => s.d
  | RegM.e => s.e
  | RegM.h => s.h
  | RegM.l => s.l
  | RegM.m => s.mem s.hl

/-- setattr(self, reg, v) for a register name, and memory[hl] = v for 'm'. -/
def setRegM (s : State) : RegM → Nat → State
  | RegM.a, v => { s with a := v }
  | RegM.b, v => { s with b := v }
  | RegM.c, v => { s with c := v }
  | RegM.d, v => { s with d := v }
  | RegM.e, v => { s with e := v }
  | RegM.h, v => { s with h := v }
  | RegM.l, v => { s with l := v }
  | RegM.m, v => { s with mem := updMem s.mem s.hl v }

/-- State.calc_flags from src/cpu.py with single=True (mask = 0xff):
z = (ans & 0xff) == 0, s = (ans & 0x80) != 0, cy = ans > 0xff,
p = parity(ans & 0xff).  ans is Int because dcr passes value - 1, which is
negative for value 0; Python's ans & 0xff on an int equals ans mod 256. -/
def calcFlags (fl : Flags) (ans : Int) : Flags :=
  { fl with
    z := if ans % 256 = 0 then 1 else 0,
    s := if (ans % 256).toNat &&& 0x80 ≠ 0 then 1 else 0,
    cy := if 255 < ans then 1 else 0,
    p := if parity (ans % 256).toNat then 1 else 0 }

/-- Operand of the ALU methods of State: a Python int (immediate byte) or a
register-name string (including 'm'). -/
inductive Src
  | imm (v : Nat)
  | reg (r : RegM)
deriving DecidableEq, Repr

/-- State.add from src/cpu.py (also ADC/ACI via carry=True):
ans = a + operand (+ cy if carry); calc_flags(ans); a = ans & 0xff.
Cycle cost is 7 for immediate and memory operands, 4 for registers. -/
def State.add (s : State) (src : Src) (carry : Bool) : State :=
  let cin := if carry then s.cc.cy else 0
  let p :=
    match src with
    | Src.imm v => (s.a + v + cin, 7)
    | Src.reg RegM.m => (s.a + s.mem s.hl + cin, 7)
    | Src.reg r => (s.a + getRegM s r + cin, 4)
  let t := { s with cycles := s.cycles + p.2 }
  let t := { t with cc := calcFlags t.cc (p.1 : Int) }
  { t with a := p.1 % 256 }

/-- State.adc from src/cpu.py: add with carry. -/
def State.adc (s : State) (src : Src) : State := s.add src true

/-- State.cmp from src/cpu.py.  Note the source's register branch reads
self.memory[self.hl] (not the named register), exactly as translated here:
tc_val = get_twos_comp(memory[hl]) in both the 'm' branch and the
register-name branch.  Flags: ac from low nibbles, ans = a + tc_val,
cy = ans <= 0xff, z = (ans & 0xff) == 0, s = (ans & 0x80) != 0,
p = parity(ans) -- of the full unmasked ans. -/
def State.cmp (s : State) (src : Src) : State :=
  let p :=
    match src with
    | Src.imm v => (get_twos_comp v, 7)
    | Src.reg RegM.m => (get_twos_comp (s.mem s.hl), 7)
    | Src.reg _ => (get_twos_comp (s.mem s.hl), 4)
  let t := { s with cycles := s.cycles + p.2 }
  let ac := if 0xf < get_lsb t.a + get_lsb p.1 then 1 else 0
  let ans := t.a + p.1
  { t with cc :=
    { t.cc with
      ac := ac,
      cy := if ans ≤ 0xff then 1 else 0,
      z := if ans % 256 = 0 then 1 else 0,
      s := if ans &&& 0x80 ≠ 0 then 1 else 0,
      p := if parity ans then 1 else 0 } }

/-- State.inr from src/cpu.py: ans = value + 1; calc_flags(ans); for a
register, reg = ans & 0xff (cycles +5); for 'm' the source performs the
unmasked bytearray write memory[hl] += 1 (cycles +10), which raises
ValueError when the stored value reaches 256 -- modelled as none. -/
def State.inr (s : State) (r : RegM) : Option State :=
  let ans := getRegM s r + 1
  let t := { s with cc := calcFlags s.cc (ans : Int) }
  match r with
  | RegM.m =>
      if t.mem t.hl + 1 ≤ 255 then
        some { t with mem := updMem t.mem t.hl (t.mem t.hl + 1), cycles := t.cycles + 10 }
      else
        none
  | r => some { setRegM t r (ans % 256) with cycles := t.cycles + 5 }

/-- State.dcr from src/cpu.py: ans = value - 1 (a Python int, negative when
the value is 0); calc_flags(ans); the stored byte is ans & 0xff, i.e.
ans mod 256; cycles +10 for 'm', +5 for a register. -/
def State.dcr (s : State) (r : RegM) : State :=
  let ans : Int := (getRegM s r : Int) - 1
  let t := { s with cc := calcFlags s.cc ans }
  match r with
  | RegM.m => { t with mem := updMem t.mem t.hl (ans % 256).toNat, cycles := t.cycles + 10 }
  | r => { setRegM t r (ans % 256).toNat with cycles := t.cycles + 5 }

/-- The register-pair selectors accepted by State.push / State.pop / the
pair properties: the strings bc, de, hl, psw, pc. -/
inductive RegPair
  | bc | de | hl | psw | pc
deriving DecidableEq, Repr

/-- getattr(self, reg) for a register-pair name; psw reads
merge_bytes(a, int(cc)). -/
def getPair (s : State) : RegPair → Nat
  | RegPair.bc => s.bc
  | RegPair.de => s.de
  | RegPair.hl => s.hl
  | RegPair.psw => merge_bytes s.a (flagsInt s.cc)
  | RegPair.pc => s.pc

/-- setattr(self, reg, v) for a register-pair name, through the property
setters of src/cpu.py: the high byte goes to the first register, the low
byte to the second; psw stores the high byte in a and unpacks the low byte
through the cc setter.  (The source's pop asserts the name is never pc;
the pc case is included for totality and is never used.) -/
def setPair (s : State) : RegPair → Nat → State
  | RegPair.bc, v => { s with b := (extract_bytes v).1, c := (extract_bytes v).2 }
  | RegPair.de, v => { s with d := (extract_bytes v).1, e := (extract_bytes v).2 }
  | RegPair.hl, v => { s with h := (extract_bytes v).1, l := (extract_bytes v).2 }
  | RegPair.psw, v => { s with a := (extract_bytes v).1, cc := ccSet s.cc (extract_bytes v).2 }
  | RegPair.pc, v => { s with pc := v }

/-- State.push from src/cpu.py: memory[sp-1], memory[sp-2] =
extract_bytes(getattr(self, reg)); sp -= 2; cycles += 11.  The theorems
using it assume 2 <= sp, under which Nat subtraction agrees with Python. -/
def State.push (s : State) (reg : RegPair) : State :=
  let hl := extract_bytes (getPair s reg)
  let t := { s with mem := updMem (updMem s.mem (s.sp - 1) hl.1) (s.sp - 2) hl.2 }
  { t with sp := t.sp - 2, cycles := t.cycles + 11 }

/-- State.pop from src/cpu.py: setattr(self, reg,
merge_bytes(memory[sp+1], memory[sp])); sp += 2; cycles += 10. -/
def State.pop (s : State) (reg : RegPair) : State :=
  let t := setPair s reg (merge_bytes (s.mem (s.sp + 1)) (s.mem s.sp))
  { t with sp := t.sp + 2, cycles := t.cycles + 10 }

/-- The cc-is-None (unconditional) branch of State.call from src/cpu.py:
cycles += 17; ret = pc + 3; memory[sp-1], memory[sp-2] = extract_bytes(ret);
sp -= 2; pc = adr.  The dispatcher calls it with pc still at the CALL
opcode. -/
def State.call (s : State) (adr : Nat) : State :=
  let t := { s with cycles := s.cycles + 17 }
  let ret := t.pc + 3
  let hl := extract_bytes ret
  let t := { t with mem := updMem (updMem t.mem (t.sp - 1) hl.1) (t.sp - 2) hl.2 }
  { t with sp := t.sp - 2, pc := adr }

/-- The cc-is-None (unconditional) branch of State.ret from src/cpu.py:
pc = merge_bytes(memory[sp+1], memory[sp]); sp += 2; cycles += 10. -/
def State.ret (s : State) : State :=
  let t := { s with pc := merge_bytes (s.mem (s.sp + 1)) (s.mem s.sp), sp := s.sp + 2 }
  { t with cycles := t.cycles + 10 }

/-- The RLC arm (opcode 0x07) of emulate in src/cpu.py, including the
dispatcher's trailing pc += 1: h = a & 0x80; cc.cy = h (the raw value 0 or
0x80, exactly as the source stores it); a = (a << 1) | h -- with no 8-bit
mask; cycles += 4. -/
def rlcStep (s : State) : State :=
  let hbit := s.a &&& 0x80
  let t := { s with cc := { s.cc with cy := hbit } }
  let t := { t with a := (t.a <<< 1) ||| hbit, cycles := t.cycles + 4 }
  { t with pc := t.pc + 1 }

/-- The RAL arm (opcode 0x17) of emulate in src/cpu.py, including the
dispatcher's trailing pc += 1: x = a; a = (x << 1) | cc.cy -- with no 8-bit
mask; cc.cy = ((x & 0x80) == 1), a comparison that is never true since
x & 0x80 is 0 or 0x80; cycles += 4. -/
def ralStep (s : State) : State :=
  let x := s.a
  let t := { s with a := (x <<< 1) ||| s.cc.cy }
  let t := { t with cc := { t.cc with cy := if x &&& 0x80 = 1 then 1 else 0 },
                    cycles := t.cycles + 4 }
  { t with pc := t.pc + 1 }

/-- The ShiftRegister device of src/devices.py. -/
structure ShiftRegister where
  register : Nat
  offset : Nat
deriving DecidableEq, Repr

/-- ShiftRegister.__init__: register 0x0000, offset 0x0. -/
def ShiftRegister.start : ShiftRegister := { register := 0x0000, offset := 0x0 }

/-- ShiftRegister.get_register: (register >> offset) & 0xff. -/
def ShiftRegister.get_register (sr : ShiftRegister) : Nat :=
  (sr.register >>> sr.offset) &&& 0xff

/-- ShiftRegister.shift: register = (register >> 8) | (val << 8). -/
def ShiftRegister.shift (sr : ShiftRegister) (val : Nat) : ShiftRegister :=
  { sr with register := (sr.register >>> 8) ||| (val <<< 8) }

/-- ShiftRegister.set_offset: offset = val & 0x08 (the source masks with
0x08, not 0x07). -/
def ShiftRegister.set_offset (sr : ShiftRegister) (val : Nat) : ShiftRegister :=
  { sr with offset := val &&& 0x08 }

/-- The Controller device of src/devices.py 's two port registers. -/
structure Controller where
  p1_reg : Nat
  p2_reg : Nat
deriving DecidableEq, Repr

/-- Controller.__init__: p1 = 0b00001100, p2 = 0b00000001. -/
def Controller.start : Controller := { p1_reg := 0b00001100, p2_reg := 0b00000001 }

/-- Display.__init__ from src/devices.py: max_cycles = 2000000/60, Python
true division, a non-integer threshold of about 33333.33.  It is modelled
as the exact rational; the IEEE double Python produces also lies strictly
between 33333 and 33334, so all comparisons with integer cycle counters
agree with this model. -/
def Display.max_cycles : ℚ := 2000000 / 60

/-- Display.refresh from src/devices.py: returns the pair (0xcf, 0xd7) when
cycles >= max_cycles, and None (modelled none) otherwise. -/
def Display.refresh (cycles : Nat) : Option (Nat × Nat) :=
  if Display.max_cycles ≤ (cycles : ℚ) then some (0xcf, 0xd7) else none

/-- The Bus of src/bus.py: the shift register and controller singletons it
routes to, and the deque of pending interrupt opcodes. -/
structure Bus where
  shft_reg : ShiftRegister
  ctrl : Controller
  interrupts : List Nat
deriving DecidableEq, Repr

/-- The bus singleton at startup: fresh devices, empty deque. -/
def Bus.start : Bus :=
  { shft_reg := ShiftRegister.start, ctrl := Controller.start, interrupts := [] }

/-- Bus.write from src/bus.py: device_map_write[adr](val).  The dict maps
0x02 to shft_reg.set_offset, 0x04 to shft_reg.shift, and 0x03/0x05/0x06 to
the dummies int/float/int (which discard the value); any other port is a
KeyError, modelled none. -/
def Bus.write (b : Bus) (adr val : Nat) : Option Bus :=
  if adr = 0x02 then some { b with shft_reg := b.shft_reg.set_offset val }
  else if adr = 0x03 then some b
  else if adr = 0x04 then some { b with shft_reg := b.shft_reg.shift val }
  else if adr = 0x05 then some b
  else if adr = 0x06 then some b
  else none

/-- Bus.read from src/bus.py: device_map_read[adr]().  The dict maps 0x01
to ctrl.get_p1, 0x02 to ctrl.get_p2, 0x03 to shft_reg.get_register; any
other port is a KeyError, modelled none. -/
def Bus.read (b : Bus) (adr : Nat) : Option Nat :=
  if adr = 0x01 then some b.ctrl.p1_reg
  else if adr = 0x02 then some b.ctrl.p2_reg
  else if adr = 0x03 then some b.shft_reg.get_register
  else none

/-- Bus.loop from src/bus.py: refresh = dspl.refresh(cycles); if truthy,
extend the interrupt deque with the pair (in order) and return True, else
return False. -/
def Bus.loop (b : Bus) (cycles : Nat) : Bus × Bool :=
  match Display.refresh cycles with
  | some pr => ({ b with interrupts := b.interrupts ++ [pr.1, pr.2] }, true)
  | none => (b, false)

/-- A State as built by State.__init__ before any ROM byte is loaded: all
registers, flags, pointers and counters zero; memory all zero. -/
def initState : State :=
  { mem := fun _ => 0, a := 0,
    cc := { z := 0, s := 0, p := 0, cy := 0, ac := 0 },
    b := 0, c := 0, d := 0, e := 0, h := 0, l := 0,
    sp := 0, pc := 0, int_enable := 0, cycles := 0 }

example : parity 0 = true := by decide
example : parity 7 = false := by decide
example : parity 255 = true := by decide
example : get_twos_comp 0x40 = 0xc0 := by decide

/-! ### Arithmetic characterizations of the byte-merging helpers -/

lemma merge_bytes_eq (hi lo : Nat) (hlo : lo < 256) :
    merge_bytes hi lo = 256 * hi + lo := by
  have h2 : (2 : Nat) ^ 8 = 256 := by norm_num
  have key := Nat.mul_add_lt_is_or (show lo < 2 ^ 8 by omega) hi
  rw [h2] at key
  unfold merge_bytes
  rw [Nat.shiftLeft_eq, h2, Nat.mul_comm]
  exact key.symm

lemma extract_bytes_eq (adr : Nat) :
    extract_bytes adr = (adr / 256 % 256, adr % 256) := by
  have h255 : (0xff : Nat) = 2 ^ 8 - 1 := by norm_num
  unfold extract_bytes
  rw [h255, Nat.and_pow_two_sub_one_eq_mod, Nat.and_pow_two_sub_one_eq_mod,
    Nat.shiftRight_eq_div_pow]

lemma extract_merge_bytes (hi lo : Nat) (hhi : hi < 256) (hlo : lo < 256) :
    extract_bytes (merge_bytes hi lo) = (hi, lo) := by
  rw [merge_bytes_eq hi lo hlo, extract_bytes_eq, Prod.mk.injEq]
  omega

lemma merge_extract_bytes (x : Nat) (hx : x < 65536) :
    merge_bytes (extract_bytes x).1 (extract_bytes x).2 = x := by
  rw [extract_bytes_eq]
  rw [merge_bytes_eq (x / 256 % 256) (x % 256) (by omega)]
  omega

/-! ### calc_flags on the two shapes of argument it receives -/

lemma calcFlags_ofNat (fl : Flags) (n : Nat) :
    calcFlags fl (n : Int) =
      { fl with
        z := if n % 256 = 0 then 1 else 0,
        s := if n % 256 &&& 0x80 ≠ 0 then 1 else 0,
        cy := if 255 < n then 1 else 0,
        p := if parity (n % 256) then 1 else 0 } := by
  unfold calcFlags
  have h1 : ((n : Int) % 256 = 0) ↔ n % 256 = 0 := by omega
  have h2 : ((n : Int) % 256).toNat = n % 256 := by omega
  have h3 : ((255 : Int) < (n : Int)) ↔ 255 < n := by omega
  simp only [h1, h2, h3]

lemma calcFlags_pred (fl : Flags) (n : Nat) :
    calcFlags fl ((n : Int) - 1) =
      { fl with
        z := if (n + 255) % 256 = 0 then 1 else 0,
        s := if (n + 255) % 256 &&& 0x80 ≠ 0 then 1 else 0,
        cy := if 256 < n then 1 else 0,
        p := if parity ((n + 255) % 256) then 1 else 0 } := by
  unfold calcFlags
  have h1 : (((n : Int) - 1) % 256 = 0) ↔ (n + 255) % 256 = 0 := by omega
  have h2 : (((n : Int) - 1) % 256).toNat = (n + 255) % 256 := by omega
  have h3 : ((255 : Int) < (n : Int) - 1) ↔ 256 < n := by omega
  simp only [h1, h2, h3]

/-! ### The PSW flag byte -/

/-- All five condition bits are genuine bits (0 or 1).  This holds for every
state the emulator reaches through calc_flags and the cc setter; RLC is the
one writer that stores a non-bit (0x80). -/
def Flags.bits01 (f : Flags) : Prop :=
  f.z ≤ 1 ∧ f.s ≤ 1 ∧ f.p ≤ 1 ∧ f.cy ≤ 1 ∧ f.ac ≤ 1

lemma flagsInt_le (f : Flags) (hf : f.bits01) : flagsInt f ≤ 255 := by
  obtain ⟨z, s, p, cy, ac⟩ := f
  obtain ⟨hz, hs, hp, hcy, hac⟩ := hf
  interval_cases z <;> interval_cases s <;> interval_cases p <;>
    interval_cases cy <;> interval_cases ac <;> decide

lemma flagsInt_layout (f : Flags) (hf : f.bits01) :
    flagsInt f = f.cy + 2 + 4 * f.p + 16 * f.ac + 64 * f.z + 128 * f.s := by
  obtain ⟨z, s, p, cy, ac⟩ := f
  obtain ⟨hz, hs, hp, hcy, hac⟩ := hf
  interval_cases z <;> interval_cases s <;> interval_cases p <;>
    interval_cases cy <;> interval_cases ac <;> decide

lemma ccSet_flagsInt (g f : Flags) (hf : f.bits01) : ccSet g (flagsInt f) = f := by
  obtain ⟨z, s, p, cy, ac⟩ := f
  obtain ⟨hz, hs, hp, hcy, hac⟩ := hf
  interval_cases z <;> interval_cases s <;> interval_cases p <;>
    interval_cases cy <;> interval_cases ac <;> rfl

/-! ### Claim theorems -/

/-- The value the claims call x: the operand of an ALU instruction, i.e. the
immediate byte, the named register, or the byte at HL for 'm'. -/
def srcVal (s : State) : Src → Nat
  | Src.imm v => v
  | Src.reg r => getRegM s r

/-- Concrete scenario state of C1: A=0x3A, B=0xC6, all flags clear. -/
def c1State : State := { initState with a := 0x3A, b := 0xC6 }

/-- C1 counterexample: from A=0x3A, B=0xC6 with all flags clear, ADD B
leaves AC = 0, not 1 as the claim requires: State.add never writes ac
(calc_flags computes only z, s, cy, p). -/
theorem C1_counterexample :
    (c1State.add (Src.reg RegM.b) false).cc.ac = 0 ∧
    ¬ (c1State.add (Src.reg RegM.b) false).cc.ac = 1 := by
  decide

/-- C1 (amended): ADD/ADI/ADC/ACI set A = (A + x + cin) & 0xFF, set Z, S, P
from the low 8 bits of the sum, set CY iff A + x + cin > 0xFF, and leave AC
unchanged (the source computes no auxiliary carry for additions).  In the
concrete scenario A=0x3A, B=0xC6, ADD B yields A=0x00, Z=1, S=0, P=1, CY=1,
and AC keeps its prior value 0. -/
theorem C1_amended (s : State) (src : Src) (carry : Bool) :
    ((s.add src carry).a =
        (s.a + srcVal s src + (if carry then s.cc.cy else 0)) % 256 ∧
      (s.add src carry).cc.z =
        (if (s.a + srcVal s src + (if carry then s.cc.cy else 0)) % 256 = 0 then 1 else 0) ∧
      (s.add src carry).cc.s =
        (if (s.a + srcVal s src + (if carry then s.cc.cy else 0)) % 256 &&& 0x80 ≠ 0
         then 1 else 0) ∧
      (s.add src carry).cc.p =
        (if parity ((s.a + srcVal s src + (if carry then s.cc.cy else 0)) % 256)
         then 1 else 0) ∧
      (s.add src carry).cc.cy =
        (if 0xff < s.a + srcVal s src + (if carry then s.cc.cy else 0) then 1 else 0) ∧
      (s.add src carry).cc.ac = s.cc.ac) ∧
    ((c1State.add (Src.reg RegM.b) false).a = 0x00 ∧
      (c1State.add (Src.reg RegM.b) false).cc.z = 1 ∧
      (c1State.add (Src.reg RegM.b) false).cc.s = 0 ∧
      (c1State.add (Src.reg RegM.b) false).cc.p = 1 ∧
      (c1State.add (Src.reg RegM.b) false).cc.cy = 1 ∧
      (c1State.add (Src.reg RegM.b) false).cc.ac = 0) := by
  constructor
  · cases src with
    | imm v =>
        simp only [State.add, srcVal, calcFlags_ofNat]
        refine ⟨?_, ?_, ?_, ?_, ?_, ?_⟩ <;> first | rfl | trivial
    | reg r =>
        cases r <;>
          (simp only [State.add, srcVal, getRegM, calcFlags_ofNat]
           refine ⟨?_, ?_, ?_, ?_, ?_, ?_⟩ <;> first | rfl | trivial)
  · decide

/-- Concrete scenario state of C3: B=5 and the carry flag set. -/
def c3State : State := { initState with b := 5, cc := { initState.cc with cy := 1 } }

/-- C3 counterexample: with B=5 and CY=1, INR B resets CY to 0, while the
claim says the CY flag is left unchanged from its value before the
instruction (calc_flags unconditionally rewrites cy). -/
theorem C3_counterexample :
    c3State.cc.cy = 1 ∧ ((c3State.inr RegM.b).map fun t => t.cc.cy) = some 0 := by
  decide

/-- C3 (amended): INR sets the operand to (old+1) & 0xFF and DCR to
(old-1) & 0xFF, updating Z, S, P from the result; but CY is not left
unchanged: calc_flags overwrites it, so INR sets CY iff the old byte was
0xFF and DCR always clears CY.  AC is untouched by both.  For INR M the
byte at HL must be below 0xFF, else the source's unmasked bytearray
increment raises (see C10). -/
theorem C3_amended (s : State) (r : RegM)
    (hm : r = RegM.m → s.mem s.hl + 1 ≤ 255)
    (hb : getRegM s r ≤ 255) :
    ((s.inr r).map fun t => getRegM t r) = some ((getRegM s r + 1) % 256) ∧
    ((s.inr r).map fun t => t.cc.z) =
      some (if (getRegM s r + 1) % 256 = 0 then 1 else 0) ∧
    ((s.inr r).map fun t => t.cc.s) =
      some (if (getRegM s r + 1) % 256 &&& 0x80 ≠ 0 then 1 else 0) ∧
    ((s.inr r).map fun t => t.cc.p) =
      some (if parity ((getRegM s r + 1) % 256) then 1 else 0) ∧
    ((s.inr r).map fun t => t.cc.cy) = some (if getRegM s r = 0xff then 1 else 0) ∧
    ((s.inr r).map fun t => t.cc.ac) = some s.cc.ac ∧
    getRegM (s.dcr r) r = (getRegM s r + 255) % 256 ∧
    (s.dcr r).cc.z = (if (getRegM s r + 255) % 256 = 0 then 1 else 0) ∧
    (s.dcr r).cc.s = (if (getRegM s r + 255) % 256 &&& 0x80 ≠ 0 then 1 else 0) ∧
    (s.dcr r).cc.p = (if parity ((getRegM s r + 255) % 256) then 1 else 0) ∧
    (s.dcr r).cc.cy = 0 ∧
    (s.dcr r).cc.ac = s.cc.ac := by
  cases r with
  | m =>
    have hm' : s.mem (merge_bytes s.h s.l) + 1 ≤ 255 := by
      simpa [State.hl] using hm rfl
    simp only [State.inr, State.dcr, getRegM, setRegM, updMem, State.hl, calcFlags_ofNat,
      calcFlags_pred] at hb ⊢
    rw [if_pos hm']
    simp only [Option.map_some', Option.some.injEq]
    refine ⟨?_, ?_, ?_, ?_, ?_, ?_, ?_, ?_, ?_, ?_, ?_, ?_⟩ <;>
      first
        | rfl
        | trivial
        | (simp only [updMem]; split_ifs <;> omega)
        | (split_ifs <;> omega)
        | omega
  | a =>
    simp only [State.inr, State.dcr, getRegM, setRegM, calcFlags_ofNat, calcFlags_pred] at hb ⊢
    simp only [Option.map_some', Option.some.injEq]
    refine ⟨?_, ?_, ?_, ?_, ?_, ?_, ?_, ?_, ?_, ?_, ?_, ?_⟩ <;>
      first
        | rfl
        | trivial
        | (split_ifs <;> omega)
        | omega
  | b =>
    simp only [State.inr, State.dcr, getRegM, setRegM, calcFlags_ofNat, calcFlags_pred] at hb ⊢
    simp only [Option.map_some', Option.some.injEq]
    refine ⟨?_, ?_, ?_, ?_, ?_, ?_, ?_, ?_, ?_, ?_, ?_, ?_⟩ <;>
      first
        | rfl
        | trivial
        | (split_ifs <;> omega)
        | omega
  | c =>
    simp only [State.inr, State.dcr, getRegM, setRegM, calcFlags_ofNat, calcFlags_pred] at hb ⊢
    simp only [Option.map_some', Option.some.injEq]
    refine ⟨?_, ?_, ?_, ?_, ?_, ?_, ?_, ?_, ?_, ?_, ?_, ?_⟩ <;>
      first
        | rfl
        | trivial
        | (split_ifs <;> omega)
        | omega
  | d =>
    simp only [State.inr, State.dcr, getRegM, setRegM, calcFlags_ofNat, calcFlags_pred] at hb ⊢
    simp only [Option.map_some', Option.some.injEq]
    refine ⟨?_, ?_, ?_, ?_, ?_, ?_, ?_, ?_, ?_, ?_, ?_, ?_⟩ <;>
      first
        | rfl
        | trivial
        | (split_ifs <;> omega)
        | omega
  | e =>
    simp only [State.inr, State.dcr, getRegM, setRegM, calcFlags_ofNat, calcFlags_pred] at hb ⊢
    simp only [Option.map_some', Option.some.injEq]
    refine ⟨?_, ?_, ?_, ?_, ?_, ?_, ?_, ?_, ?_, ?_, ?_, ?_⟩ <;>
      first
        | rfl
        | trivial
        | (split_ifs <;> omega)
        | omega
  | h =>
    simp only [State.inr, State.dcr, getRegM, setRegM, calcFlags_ofNat, calcFlags_pred] at hb ⊢
    simp only [Option.map_some', Option.some.injEq]
    refine ⟨?_, ?_, ?_, ?_, ?_, ?_, ?_, ?_, ?_, ?_, ?_, ?_⟩ <;>
      first
        | rfl
        | trivial
        | (split_ifs <;> omega)
        | omega
  | l =>
    simp only [State.inr, State.dcr, getRegM, setRegM, calcFlags_ofNat, calcFlags_pred] at hb ⊢
    simp only [Option.map_some', Option.some.injEq]
    refine ⟨?_, ?_, ?_, ?_, ?_, ?_, ?_, ?_, ?_, ?_, ?_, ?_⟩ <;>
      first
        | rfl
        | trivial
        | (split_ifs <;> omega)
        | omega

/-- Witness for C3_amended: the concrete state B=5, CY=1, register operand b. -/
theorem C3_amended_witness :
    ((RegM.b = RegM.m → c3State.mem c3State.hl + 1 ≤ 255) ∧ getRegM c3State RegM.b ≤ 255) ∧
    (((c3State.inr RegM.b).map fun t => getRegM t RegM.b) =
        some ((getRegM c3State RegM.b + 1) % 256) ∧
      ((c3State.inr RegM.b).map fun t => t.cc.z) =
        some (if (getRegM c3State RegM.b + 1) % 256 = 0 then 1 else 0) ∧
      ((c3State.inr RegM.b).map fun t => t.cc.s) =
        some (if (getRegM c3State RegM.b + 1) % 256 &&& 0x80 ≠ 0 then 1 else 0) ∧
      ((c3State.inr RegM.b).map fun t => t.cc.p) =
        some (if parity ((getRegM c3State RegM.b + 1) % 256) then 1 else 0) ∧
      ((c3State.inr RegM.b).map fun t => t.cc.cy) =
        some (if getRegM c3State RegM.b = 0xff then 1 else 0) ∧
      ((c3State.inr RegM.b).map fun t => t.cc.ac) = some c3State.cc.ac ∧
      getRegM (c3State.dcr RegM.b) RegM.b = (getRegM c3State RegM.b + 255) % 256 ∧
      (c3State.dcr RegM.b).cc.z =
        (if (getRegM c3State RegM.b + 255) % 256 = 0 then 1 else 0) ∧
      (c3State.dcr RegM.b).cc.s =
        (if (getRegM c3State RegM.b + 255) % 256 &&& 0x80 ≠ 0 then 1 else 0) ∧
      (c3State.dcr RegM.b).cc.p =
        (if parity ((getRegM c3State RegM.b + 255) % 256) then 1 else 0) ∧
      (c3State.dcr RegM.b).cc.cy = 0 ∧
      (c3State.dcr RegM.b).cc.ac = c3State.cc.ac) :=
  ⟨⟨by decide, by decide⟩, C3_amended c3State RegM.b (by decide) (by decide)⟩

/-- C5: for every A in [0,255], every assignment of the five flag bits in
{0,1} and any SP >= 2, PUSH PSW then POP PSW restores the same A, the same
five flag bits and the same SP, and the packed flag byte written to
memory[SP] has the layout (LSB to MSB) CY, 1, P, 0, AC, 0, Z, S, i.e. the
value CY + 2 + 4 P + 16 AC + 64 Z + 128 S. -/
theorem C5_confirmed (s : State) (ha : s.a ≤ 255) (hf : s.cc.bits01) (hsp : 2 ≤ s.sp) :
    ((s.push RegPair.psw).pop RegPair.psw).a = s.a ∧
    ((s.push RegPair.psw).pop RegPair.psw).cc = s.cc ∧
    ((s.push RegPair.psw).pop RegPair.psw).sp = s.sp ∧
    (s.push RegPair.psw).mem ((s.push RegPair.psw).sp) =
      s.cc.cy + 2 + 4 * s.cc.p + 16 * s.cc.ac + 64 * s.cc.z + 128 * s.cc.s := by
  have hfb : flagsInt s.cc ≤ 255 := flagsInt_le s.cc hf
  have hext : extract_bytes (merge_bytes s.a (flagsInt s.cc)) = (s.a, flagsInt s.cc) :=
    extract_merge_bytes s.a (flagsInt s.cc) (by omega) (by omega)
  have h1 : ¬ (s.sp - 2 + 1 = s.sp - 2) := by omega
  have h2 : s.sp - 2 + 1 = s.sp - 1 := by omega
  have hlo : (s.push RegPair.psw).mem ((s.push RegPair.psw).sp) = flagsInt s.cc := by
    simp only [State.push, getPair, hext, updMem]
    simp
  have hhi : (s.push RegPair.psw).mem ((s.push RegPair.psw).sp + 1) = s.a := by
    simp only [State.push, getPair, hext, updMem]
    rw [if_neg h1, if_pos h2]
  refine ⟨?_, ?_, ?_, ?_⟩
  · simp only [State.pop, setPair]
    rw [hhi, hlo, hext]
  · simp only [State.pop, setPair]
    rw [hhi, hlo, hext]
    show ccSet (s.push RegPair.psw).cc (flagsInt s.cc) = s.cc
    have hcc : (s.push RegPair.psw).cc = s.cc := by simp only [State.push]
    rw [hcc]
    exact ccSet_flagsInt s.cc s.cc hf
  · simp only [State.pop, setPair, State.push]
    omega
  · rw [hlo]
    exact flagsInt_layout s.cc hf

/-- Concrete scenario state of C5: A=0xAB, flags Z=1,S=0,P=1,CY=1,AC=0,
SP=0x2400. -/
def c5Flags : Flags := { z := 1, s := 0, p := 1, cy := 1, ac := 0 }

/-- Concrete C5 state assembled from c5Flags. -/
def c5State : State := { initState with a := 0xAB, cc := c5Flags, sp := 0x2400 }

/-- Witness for C5_confirmed at A=0xAB, flags 1/0/1/1/0, SP=0x2400. -/
theorem C5_confirmed_witness :
    (c5State.a ≤ 255 ∧ c5State.cc.bits01 ∧ 2 ≤ c5State.sp) ∧
    (((c5State.push RegPair.psw).pop RegPair.psw).a = c5State.a ∧
      ((c5State.push RegPair.psw).pop RegPair.psw).cc = c5State.cc ∧
      ((c5State.push RegPair.psw).pop RegPair.psw).sp = c5State.sp ∧
      (c5State.push RegPair.psw).mem ((c5State.push RegPair.psw).sp) =
        c5State.cc.cy + 2 + 4 * c5State.cc.p + 16 * c5State.cc.ac +
          64 * c5State.cc.z + 128 * c5State.cc.s) :=
  ⟨⟨by decide, ⟨by decide, by decide, by decide, by decide, by decide⟩, by decide⟩,
    C5_confirmed c5State (by decide)
      ⟨by decide, by decide, by decide, by decide, by decide⟩ (by decide)⟩

/-- C6: after the unconditional CALL the top-of-stack word is the address
pc+3 of the instruction following the 3-byte CALL, with its low byte at
memory[SP]; SP has decreased by 2 and PC is the call target.  The matching
unconditional RET then restores PC = pc+3 and the pre-CALL SP. -/
theorem C6_confirmed (s : State) (adr : Nat) (hsp : 2 ≤ s.sp) (hpc : s.pc + 3 < 65536) :
    merge_bytes ((s.call adr).mem ((s.call adr).sp + 1))
        ((s.call adr).mem ((s.call adr).sp)) = s.pc + 3 ∧
    (s.call adr).mem ((s.call adr).sp) = (s.pc + 3) % 256 ∧
    (s.call adr).sp + 2 = s.sp ∧
    (s.call adr).pc = adr ∧
    ((s.call adr).ret).pc = s.pc + 3 ∧
    ((s.call adr).ret).sp = s.sp := by
  have h1 : ¬ (s.sp - 2 + 1 = s.sp - 2) := by omega
  have h2 : s.sp - 2 + 1 = s.sp - 1 := by omega
  have hlo : (s.call adr).mem ((s.call adr).sp) = (extract_bytes (s.pc + 3)).2 := by
    simp only [State.call, updMem]
    simp
  have hhi : (s.call adr).mem ((s.call adr).sp + 1) = (extract_bytes (s.pc + 3)).1 := by
    simp only [State.call, updMem]
    rw [if_neg h1, if_pos h2]
  refine ⟨?_, ?_, ?_, ?_, ?_, ?_⟩
  · rw [hhi, hlo, merge_extract_bytes _ hpc]
  · rw [hlo, extract_bytes_eq]
  · simp only [State.call]
    omega
  · simp only [State.call]
  · simp only [State.ret]
    rw [hhi, hlo, merge_extract_bytes _ hpc]
  · simp only [State.ret, State.call]
    omega

/-- Concrete scenario state of C6: SP=0x2400, PC=0x1234. -/
def c6State : State := { initState with sp := 0x2400, pc := 0x1234 }

/-- Witness for C6_confirmed at SP=0x2400, PC=0x1234, CALL 0x0005. -/
theorem C6_confirmed_witness :
    (2 ≤ c6State.sp ∧ c6State.pc + 3 < 65536) ∧
    (merge_bytes ((c6State.call 0x0005).mem ((c6State.call 0x0005).sp + 1))
        ((c6State.call 0x0005).mem ((c6State.call 0x0005).sp)) = c6State.pc + 3 ∧
      (c6State.call 0x0005).mem ((c6State.call 0x0005).sp) = (c6State.pc + 3) % 256 ∧
      (c6State.call 0x0005).sp + 2 = c6State.sp ∧
      (c6State.call 0x0005).pc = 0x0005 ∧
      ((c6State.call 0x0005).ret).pc = c6State.pc + 3 ∧
      ((c6State.call 0x0005).ret).sp = c6State.sp) :=
  ⟨⟨by decide, by decide⟩, C6_confirmed c6State 0x0005 (by decide) (by decide)⟩

/-- Failing-input state of C2: A=9, B=5 and every memory byte 20 (so the
byte at HL is 20). -/
def c2State : State := { initState with a := 9, b := 5, mem := fun _ => 20 }

/-- Concrete scenario state of C2's CPI part: A=0x4A. -/
def cpiState : State := { initState with a := 0x4A }

/-- C2 evaluation at the failing input: with A=9, B=5 and the byte at HL
equal to 20, CMP B sets CY=1 (a borrow against memory[HL]=20) although
A >= B, and its flags coincide with those of CMP M: the source's register
branch reads memory[hl] instead of the named register.  The claim's CPI
scenario itself holds: with A=0x4A, CPI 0x40 gives Z=0, CY=0, CPI 0x50
gives Z=0, CY=1, and A stays 0x4A. -/
theorem C2_code_bug :
    (c2State.cmp (Src.reg RegM.b)).cc.cy = 1 ∧
    (c2State.cmp (Src.reg RegM.b)).cc = (c2State.cmp (Src.reg RegM.m)).cc ∧
    (c2State.cmp (Src.reg RegM.b)).a = 9 ∧
    (c2State.cmp (Src.reg RegM.b)).b = 5 ∧
    ((cpiState.cmp (Src.imm 0x40)).cc.z = 0 ∧ (cpiState.cmp (Src.imm 0x40)).cc.cy = 0) ∧
    ((cpiState.cmp (Src.imm 0x50)).cc.z = 0 ∧ (cpiState.cmp (Src.imm 0x50)).cc.cy = 1) ∧
    (cpiState.cmp (Src.imm 0x40)).a = 0x4A := by
  decide

/-- Failing-input state of C4: A=0x80 with CY=0. -/
def c4State : State := { initState with a := 0x80 }

/-- C4 evaluation at the failing input: RLC at A=0x80 produces
A = 0x180 = 384 and RAL produces A = 0x100, both outside [0,255]: the
source masks neither rotate result to 8 bits. -/
theorem C4_code_bug :
    (rlcStep c4State).a = 0x180 ∧ ¬ (rlcStep c4State).a ≤ 255 ∧
    (ralStep c4State).a = 0x100 ∧ ¬ (ralStep c4State).a ≤ 255 := by
  decide

/-- The C7 scenario: setOffset(2); shiftIn(0xAA); shiftIn(0xBB). -/
def c7Seq : ShiftRegister :=
  ((ShiftRegister.start.set_offset 2).shift 0xAA).shift 0xBB

/-- C7 counterexample: after setOffset(2); shiftIn(0xAA); shiftIn(0xBB) the
internal register is indeed 0xBBAA, but read() returns 0xAA, not 0xEE: the
source masks the offset with 0x08 (so 2 becomes 0) and shifts right by
offset, not by 8 - offset. -/
theorem C7_counterexample :
    c7Seq.register = 0xBBAA ∧ c7Seq.get_register = 0xAA ∧
    ¬ c7Seq.get_register = 0xEE := by
  decide

/-- C7 (amended): setOffset(v) stores offset = v & 0x08, shiftIn(v) sets
reg = (v << 8) | (reg >> 8), and read() returns (reg >> offset) & 0xFF;
after the sequence setOffset(2); shiftIn(0xAA); shiftIn(0xBB) the internal
register equals 0xBBAA and read() returns 0xAA. -/
theorem C7_amended (sr : ShiftRegister) (v : Nat) :
    (sr.set_offset v).offset = v &&& 0x08 ∧
    (sr.set_offset v).register = sr.register ∧
    (sr.shift v).register = (v <<< 8) ||| (sr.register >>> 8) ∧
    (sr.shift v).offset = sr.offset ∧
    sr.get_register = (sr.register >>> sr.offset) &&& 0xff ∧
    c7Seq.register = 0xBBAA ∧ c7Seq.get_register = 0xAA := by
  refine ⟨rfl, rfl, ?_, rfl, rfl, by decide, by decide⟩
  exact Nat.or_comm _ _

/-- C8 counterexample: a tick at cycles = 16,666 -- and even at 33,333 --
produces nothing: the source threshold is max_cycles = 2000000/60, about
33333.33, not 2000000/120 = 16666. -/
theorem C8_counterexample :
    Display.refresh 16666 = none ∧ Display.refresh 33333 = none := by
  unfold Display.refresh Display.max_cycles
  norm_num

/-- C8 (amended): the display threshold is max_cycles = 2000000/60 (a full
60 Hz frame at 2 MHz, about 33333.33): a tick with cycles <= 33333 produces
nothing; once cycles >= 33334 a single tick produces the pair [0xCF, 0xD7]
(RST 1 then RST 2), and Bus.loop appends that pair to the interrupt queue
in that order and reports True. -/
theorem C8_amended (cycles : Nat) (b : Bus) :
    Display.refresh cycles = (if 33334 ≤ cycles then some (0xcf, 0xd7) else none) ∧
    b.loop cycles =
      (if 33334 ≤ cycles
       then ({ b with interrupts := b.interrupts ++ [0xcf, 0xd7] }, true)
       else (b, false)) := by
  have key : (Display.max_cycles ≤ (cycles : ℚ)) ↔ 33334 ≤ cycles := by
    unfold Display.max_cycles
    rw [div_le_iff₀ (by norm_num)]
    have hcast : ((2000000 : ℚ) ≤ (cycles : ℚ) * 60) ↔ (2000000 ≤ cycles * 60) := by
      constructor <;> intro hx <;> exact_mod_cast hx
    rw [hcast]
    omega
  constructor
  · unfold Display.refresh
    simp only [key]
  · unfold Bus.loop Display.refresh
    simp only [key]
    split_ifs <;> rfl

/-- C9 counterexample: OUT to port 0x07 and IN from port 0x00 both hit a
missing dict key (a KeyError, modelled none); in particular the IN does not
return 0. -/
theorem C9_counterexample :
    Bus.write Bus.start 0x07 0xAB = none ∧
    Bus.read Bus.start 0x00 = none ∧
    ¬ Bus.read Bus.start 0x00 = some 0 := by
  decide

/-- C9 (amended): an OUT to any port outside the write map {2,3,4,5,6}
raises KeyError (modelled none) instead of being silently ignored, and an
IN from any port outside the read map {1,2,3} raises KeyError instead of
returning 0. -/
theorem C9_amended (b : Bus) (adr val : Nat) :
    (b.write adr val = none ↔ (adr ≠ 2 ∧ adr ≠ 3 ∧ adr ≠ 4 ∧ adr ≠ 5 ∧ adr ≠ 6)) ∧
    (b.read adr = none ↔ (adr ≠ 1 ∧ adr ≠ 2 ∧ adr ≠ 3)) := by
  unfold Bus.write Bus.read
  constructor <;> split_ifs <;> simp_all

/-- Failing-input state of C10: HL = 0x2000 and every memory byte 0xFF. -/
def c10State : State := { initState with h := 0x20, mem := fun _ => 0xFF }

/-- C10 evaluation at the failing input: with the byte at HL = 0x2000 equal
to 0xFF, INR M does not complete: the source executes memory[hl] += 1,
which stores 256 into a bytearray cell and raises ValueError (modelled
none). -/
theorem C10_code_bug :
    c10State.mem c10State.hl = 0xFF ∧ c10State.inr RegM.m = none := by
  constructor
  · decide
  · rfl
